import Mathlib

/-!
Verification of the JSON-schema conformance validator of `mcp_ade_server.py`
(`ade_validate_json_schema` and its nested `traverse`, plus the validation
gate inside `ade_extract_with_json_schema`).

The Python value universe relevant here (the JSON-compatible trees the tools
receive) is embedded as the mutual inductive family `JVal` / `JList` / `JDict`:
a Python `dict` is an insertion-ordered association list with distinct keys,
a Python `list` is a plain list.
-/

namespace McpAdeServer

mutual

inductive JVal where
  | null : JVal
  | bool : Bool → JVal
  | num : Int → JVal
  | str : String → JVal
  | list : JList → JVal
  | dict : JDict → JVal

inductive JList where
  | nil : JList
  | cons : JVal → JList → JList

inductive JDict where
  | nil : JDict
  | cons : String → JVal → JDict → JDict

end

/-- `kvs.get(k)` on a Python dict: the value stored at `k`, if any
(association lists built from JSON have distinct keys; first match). -/
def pyGet (kvs : JDict) (k : String) : Option JVal :=
  match kvs with
  | JDict.nil => none
  | JDict.cons k2 v rest => if k2 == k then some v else pyGet rest k

/-- `k in kvs` on a Python dict. -/
def hasKey (kvs : JDict) (k : String) : Bool :=
  match kvs with
  | JDict.nil => false
  | JDict.cons k2 _ rest => k2 == k || hasKey rest k

/-- `kvs.get("type") == t` for a string `t` (a non-string stored value
compares unequal to a Python string). -/
def dictTypeIs (kvs : JDict) (t : String) : Bool :=
  match pyGet kvs "type" with
  | some (JVal.str s) => s == t
  | _ => false

/-- `s in ts` for a Python string `s` and list `ts` of JSON values. -/
def strListHas (ts : JList) (s : String) : Bool :=
  match ts with
  | JList.nil => false
  | JList.cons (JVal.str u) rest => u == s || strListHas rest s
  | JList.cons _ rest => strListHas rest s

/-! ### Violation messages (the f-strings of `traverse`)

The single-quote character of the Python message texts is written via its
code point to keep the file ASCII-clean around quotes. -/

def sQuote : String := String.singleton (Char.ofNat 39)

def quoted (s : String) : String := sQuote ++ s ++ sQuote

def rootTypeMsg : String :=
  "Rule Broken: Top-level " ++ quoted "type" ++ " must be " ++ quoted "object" ++ "."

def depthMsg (path : String) : String :=
  "Rule Broken: Schema depth exceeds 5 at path " ++ quoted path ++ "."

def prohibMsg (key newPath : String) : String :=
  "Rule Broken: Prohibited keyword " ++ quoted key ++ " found at path " ++ quoted newPath ++ "."

def typeArrMsg (newPath : String) : String :=
  "Rule Broken: Type array at path " ++ quoted newPath ++ " cannot contain " ++
    quoted "object" ++ " or " ++ quoted "array" ++ ". Use " ++ quoted "anyOf" ++ " instead."

def objPropsMsg (path : String) : String :=
  "Rule Broken: Object at path " ++ quoted path ++ " must have a " ++ quoted "properties" ++ " field."

def arrItemsMsg (path : String) : String :=
  "Rule Broken: Array at path " ++ quoted path ++ " must have an " ++ quoted "items" ++ " field."

/-- The set `prohibited_keywords` of `ade_validate_json_schema`. -/
def prohibited_keywords : List String :=
  ["allOf", "not", "dependentRequired", "dependentSchemas", "if", "then", "else"]

/-- `key == "type" and isinstance(value, list) and any(t in value for t in ["object", "array"])`,
the value part. -/
def isTypeArrayViolation (v : JVal) : Bool :=
  match v with
  | JVal.list ts => strListHas ts "object" || strListHas ts "array"
  | _ => false

/-- The four checks the `for key, value in obj.items()` loop body of `traverse`
appends before its recursive call, in source order: prohibited keyword,
type-array, object completeness, array completeness.  `whole` is the dict
being iterated (the loop body consults `obj`, not `key`, for the two
completeness checks, and reports them at the node's own `path`). -/
def keyChecks (whole : JDict) (key : String) (value : JVal) (path : String) : List String :=
  (if prohibited_keywords.contains key then [prohibMsg key (path ++ "." ++ key)] else [])
  ++ (if key == "type" && isTypeArrayViolation value then [typeArrMsg (path ++ "." ++ key)] else [])
  ++ (if dictTypeIs whole "object" && !hasKey whole "properties" then [objPropsMsg path] else [])
  ++ (if dictTypeIs whole "array" && !hasKey whole "items" then [arrItemsMsg path] else [])

mutual

/-- The nested helper `traverse(obj, path, depth)` of `ade_validate_json_schema`,
written as a pure function returning the list of messages it appends to the
shared `errors` accumulator, in append order. -/
def traverse (obj : JVal) (path : String) (depth : Nat) : List String :=
  if depth > 5 then [depthMsg path]
  else
    match obj with
    | JVal.dict kvs => traverseItems kvs kvs path depth
    | JVal.list xs => traverseElems xs 0 path depth
    | _ => []

/-- The `for key, value in obj.items()` loop of `traverse`: `whole` is the
dict being iterated, `rest` the items not yet visited. -/
def traverseItems (whole : JDict) (rest : JDict) (path : String) (depth : Nat) : List String :=
  match rest with
  | JDict.nil => []
  | JDict.cons key value rest2 =>
    keyChecks whole key value path
      ++ traverse value (path ++ "." ++ key) (depth + 1)
      ++ traverseItems whole rest2 path depth

/-- The `for i, item in enumerate(obj)` loop of `traverse`. -/
def traverseElems (xs : JList) (i : Nat) (path : String) (depth : Nat) : List String :=
  match xs with
  | JList.nil => []
  | JList.cons x xs2 =>
    traverse x (path ++ "[" ++ toString i ++ "]") (depth + 1)
      ++ traverseElems xs2 (i + 1) path depth

end

/-- The full error list of `ade_validate_json_schema` on a dict argument, in
append order: the top-level type check, then `traverse(schema, "root", 1)`. -/
def validateErrors (kvs : JDict) : List String :=
  (if dictTypeIs kvs "object" then [] else [rootTypeMsg]) ++ traverse (JVal.dict kvs) "root" 1

def validOkLiteral : String := "✅ Schema is valid according to ADE documentation rules."

def failHeader : String := "❌ Schema validation failed:\n"

/-- The return value of `ade_validate_json_schema` given its error list:
success literal when empty, otherwise the failure header plus one bullet per
deduplicated message.  The source renders `set(errors)` in unspecified order;
this embedding fixes the first-occurrence order (`List.dedup` keeps, for each
message, one occurrence; which list is rendered is immaterial to the claims,
none of which depend on multi-element rendering order). -/
def renderReport (errors : List String) : String :=
  if errors.isEmpty then validOkLiteral
  else failHeader ++ String.intercalate "\n" (errors.dedup.map (fun e => "- " ++ e))

def pyAttributeError : String :=
  "AttributeError: " ++ quoted "NoneType" ++ " object has no attribute " ++ quoted "get"

/-- `ade_validate_json_schema(ctx, schema)`.  The tool body starts with
`schema.get("type")`; on a dict it is total and returns the rendered report
(`Except.ok`), while any non-dict argument (e.g. a `None` root) raises an
`AttributeError` at that first access (`Except.error`). -/
def ade_validate_json_schema (schema : JVal) : Except String String :=
  match schema with
  | JVal.dict kvs => Except.ok (renderReport (validateErrors kvs))
  | _ => Except.error pyAttributeError

/-- Python's substring test `needle in hay` on strings. -/
def strContains (hay needle : String) : Bool :=
  decide (List.IsInfix needle.data hay.data)

/-- The observable outcome of `ade_extract_with_json_schema`, up to the point
where the external extraction engine would take over: either the request is
refused with a text payload (the engine is not called), or the pair
`(pdf_base64, schema)` is forwarded to the engine. -/
inductive ExtractAction where
  | refused (payload : String)
  | forwarded (pdfBase64 : List Nat) (schema : JVal)

/-- The gate of `ade_extract_with_json_schema` (source lines 492-502): run the
validator first; if its report contains the failure marker, refuse with a
payload embedding that report; otherwise forward to the engine.  An exception
raised while validating is caught by the surrounding handler (line 519) and
also refuses.  The document bytes are opaque to the gate. -/
def ade_extract_with_json_schema (pdfBase64 : List Nat) (schema : JVal) : ExtractAction :=
  match ade_validate_json_schema schema with
  | Except.error e =>
    ExtractAction.refused ("Error during JSON schema extraction: " ++ e)
  | Except.ok validationResult =>
    if strContains validationResult "❌" then
      ExtractAction.refused
        ("Schema validation failed. Please fix the schema before extraction.\n" ++ validationResult)
    else
      ExtractAction.forwarded pdfBase64 schema

mutual

/-- `traverse` with an explicit call-stack budget: each recursive call (into a
key's value or a list element, exactly as in the source) consumes one unit of
`fuel`, and an exhausted budget yields `none`.  Used to state that the depth
ceiling is an absolute recursion bound. -/
def traverseFuel (fuel : Nat) (obj : JVal) (path : String) (depth : Nat) :
    Option (List String) :=
  match fuel with
  | 0 => none
  | fuel2 + 1 =>
    if depth > 5 then some [depthMsg path]
    else
      match obj with
      | JVal.dict kvs => traverseFuelItems fuel2 kvs kvs path depth
      | JVal.list xs => traverseFuelElems fuel2 xs 0 path depth
      | _ => some []

def traverseFuelItems (fuel : Nat) (whole : JDict) (rest : JDict) (path : String)
    (depth : Nat) : Option (List String) :=
  match rest with
  | JDict.nil => some []
  | JDict.cons key value rest2 =>
    match traverseFuel fuel value (path ++ "." ++ key) (depth + 1),
          traverseFuelItems fuel whole rest2 path depth with
    | some e1, some e2 => some (keyChecks whole key value path ++ e1 ++ e2)
    | _, _ => none

def traverseFuelElems (fuel : Nat) (xs : JList) (i : Nat) (path : String)
    (depth : Nat) : Option (List String) :=
  match xs with
  | JList.nil => some []
  | JList.cons x xs2 =>
    match traverseFuel fuel x (path ++ "[" ++ toString i ++ "]") (depth + 1),
          traverseFuelElems fuel xs2 (i + 1) path depth with
    | some e1, some e2 => some (e1 ++ e2)
    | _, _ => none

end

mutual

/-- Specification-side notion for claim C4: every occurrence of a prohibited
keyword anywhere in the tree, as `(keyword, path of the occurrence, depth of
the node carrying it)`, with path and depth bookkeeping identical to
`traverse` but without any ceiling cutoff. -/
def prohibitedOccs (obj : JVal) (path : String) (depth : Nat) :
    List (String × String × Nat) :=
  match obj with
  | JVal.dict kvs => prohibitedOccsItems kvs path depth
  | JVal.list xs => prohibitedOccsElems xs 0 path depth
  | _ => []

def prohibitedOccsItems (kvs : JDict) (path : String) (depth : Nat) :
    List (String × String × Nat) :=
  match kvs with
  | JDict.nil => []
  | JDict.cons key value rest =>
    (if prohibited_keywords.contains key then [(key, path ++ "." ++ key, depth)] else [])
      ++ prohibitedOccs value (path ++ "." ++ key) (depth + 1)
      ++ prohibitedOccsItems rest path depth

def prohibitedOccsElems (xs : JList) (i : Nat) (path : String) (depth : Nat) :
    List (String × String × Nat) :=
  match xs with
  | JList.nil => []
  | JList.cons x xs2 =>
    prohibitedOccs x (path ++ "[" ++ toString i ++ "]") (depth + 1)
      ++ prohibitedOccsElems xs2 (i + 1) path depth

end

/-! ### Convenience constructors for concrete schemas -/

def jdict : List (String × JVal) → JDict
  | [] => JDict.nil
  | (k, v) :: rest => JDict.cons k v (jdict rest)

def jlist : List JVal → JList
  | [] => JList.nil
  | v :: rest => JList.cons v (jlist rest)

def jobj (l : List (String × JVal)) : JVal := JVal.dict (jdict l)

def jarr (l : List JVal) : JVal := JVal.list (jlist l)

mutual

/-- Modelled from the spec, for comparison with the code's depth counting:
"the nesting depth (root = depth 1, each descent into a property value, array
item schema, or list element increments depth by 1)".  Only the values inside
a node's `properties` mapping, a node's `items` schema, and list elements
count as descents; scalar keyword values do not. -/
def specStructuralDepth (j : JVal) : Nat :=
  match j with
  | JVal.dict kvs => 1 + specStructuralChildren kvs
  | JVal.list xs => 1 + specStructuralElems xs
  | _ => 1

/-- Largest structural depth among a node's structural children: the values
of its `properties` mapping and its `items` schema. -/
def specStructuralChildren (kvs : JDict) : Nat :=
  match kvs with
  | JDict.nil => 0
  | JDict.cons k v rest =>
    (if k == "properties" then
       match v with
       | JVal.dict ps => specStructuralProps ps
       | _ => 0
     else if k == "items" then specStructuralDepth v
     else 0)
      ⊔ specStructuralChildren rest

/-- Largest structural depth among the property values of a `properties`
mapping. -/
def specStructuralProps (ps : JDict) : Nat :=
  match ps with
  | JDict.nil => 0
  | JDict.cons _ v rest => specStructuralDepth v ⊔ specStructuralProps rest

def specStructuralElems (xs : JList) : Nat :=
  match xs with
  | JList.nil => 0
  | JList.cons x rest => specStructuralDepth x ⊔ specStructuralElems rest

end

/-- Scenario 1 of the spec: a valid schema,
`{"type": "object", "properties": {"name": {"type": "string"}}}`. -/
def scenario1 : JDict :=
  jdict [("type", JVal.str "object"),
         ("properties", jobj [("name", jobj [("type", JVal.str "string")])])]

/-- Scenario 3 of the spec:
`{"type": "object", "properties": {"x": {"type": "object"}}}`. -/
def scenario3 : JDict :=
  jdict [("type", JVal.str "object"),
         ("properties", jobj [("x", jobj [("type", JVal.str "object")])])]

/-- Scenario 4 of the spec:
`{"type": "object", "allOf": [], "properties": {}}`. -/
def scenario4 : JDict :=
  jdict [("type", JVal.str "object"), ("allOf", jarr []), ("properties", jobj [])]

/-- Scenario 5 of the spec:
`{"type": "object", "properties": {"a": {"type": ["object", "string"]}}}`. -/
def scenario5 : JDict :=
  jdict [("type", JVal.str "object"),
         ("properties", jobj [("a", jobj [("type", jarr [JVal.str "object", JVal.str "string"])])])]

/-- The 6-levels-deep chain of the spec
(object → properties → object → properties → object → properties → object). -/
def deepChain6 : JDict :=
  jdict [("type", JVal.str "object"),
         ("properties", jobj [("a",
           jobj [("type", JVal.str "object"),
                 ("properties", jobj [("b",
                   jobj [("type", JVal.str "object"),
                         ("properties", jobj [("c",
                           jobj [("type", JVal.str "object")])])])])])])]

/-- The "Example Valid Schema" of the `ade_validate_json_schema` docstring
(source lines 351-367): an invoice schema with a nested array of objects. -/
def docExampleSchema : JDict :=
  jdict [("type", JVal.str "object"),
         ("properties", jobj [
           ("invoice_number", jobj [("type", JVal.str "string")]),
           ("items", jobj [
             ("type", JVal.str "array"),
             ("items", jobj [
               ("type", JVal.str "object"),
               ("properties", jobj [
                 ("name", jobj [("type", JVal.str "string")]),
                 ("price", jobj [("type", JVal.str "number")])])])])])]

/-- `{"a": {"b": {"c": {"d": {"e": {"allOf": []}}}}}}` — a prohibited keyword
on a node first entered at depth 6, past the ceiling. -/
def deepAllOfSchema : JDict :=
  jdict [("a", jobj [("b", jobj [("c", jobj [("d", jobj [("e",
    jobj [("allOf", jarr [])])])])])])]

/-- `{"p": {"q": {"r": {"s": {"t": {"type": "object"}}}}}}` — an object-typed
node without `properties`, first entered at depth 6, past the ceiling. -/
def deepObjSchema : JDict :=
  jdict [("p", jobj [("q", jobj [("r", jobj [("s", jobj [("t",
    jobj [("type", JVal.str "object")])])])])])]

/-- `{"u": {"v": {"w": {"x": {"y": {"type": ["object", "string"]}}}}}}` — a
type-union node first entered at depth 6, past the ceiling. -/
def deepTypeUnionSchema : JDict :=
  jdict [("u", jobj [("v", jobj [("w", jobj [("x", jobj [("y",
    jobj [("type", jarr [JVal.str "object", JVal.str "string"])])])])])])]

/-! ### General lemmas about the traversal -/

/-- Once the depth ceiling is crossed, `traverse` records the single ceiling
violation and inspects nothing. -/
theorem traverse_past_ceiling (obj : JVal) (path : String) (depth : Nat)
    (h : depth > 5) : traverse obj path depth = [depthMsg path] := by
  cases obj <;> simp [traverse, h]

theorem traverse_dict_le (kvs : JDict) (path : String) (depth : Nat)
    (h : ¬ depth > 5) :
    traverse (JVal.dict kvs) path depth = traverseItems kvs kvs path depth := by
  simp [traverse, h]

theorem traverseItems_cons (whole : JDict) (key : String) (value : JVal)
    (rest : JDict) (path : String) (depth : Nat) :
    traverseItems whole (JDict.cons key value rest) path depth =
      keyChecks whole key value path
        ++ traverse value (path ++ "." ++ key) (depth + 1)
        ++ traverseItems whole rest path depth := by
  simp [traverseItems]

/-! ### Claim theorems -/

/-- C1: once a branch exceeds the depth ceiling of 5, `traverse` records
exactly the single ceiling violation for that branch and nothing for any
descendant past the ceiling; on the 6-levels-deep chain schema the complete
violation list consists of depth-exceeded violations only (in particular the
innermost object's missing `properties` is not reported). -/
theorem claim1_depth_ceiling_stops_descent :
    (∀ (obj : JVal) (path : String) (depth : Nat), depth > 5 →
        traverse obj path depth = [depthMsg path]) ∧
    validateErrors deepChain6 =
      [depthMsg "root.properties.a.properties.b.type",
       depthMsg "root.properties.a.properties.b.properties"] := by
  refine ⟨traverse_past_ceiling, ?_⟩
  decide

/-- Witness for C1 at a concrete past-ceiling call. -/
theorem claim1_depth_ceiling_stops_descent_witness :
    traverse (JVal.dict JDict.nil) "root" 6 = [depthMsg "root"] :=
  claim1_depth_ceiling_stops_descent.1 (JVal.dict JDict.nil) "root" 6 (by decide)

/-- C2 (code bug): the docstring's own "Example Valid Schema" has structural
nesting depth 4 (per the spec's counting: root = 1, each descent into a
property value or array items schema adds 1), yet the code reports two
depth-exceeded violations for it, because `traverse` increments `depth` on
every dict value visit — including scalar keyword values such as
`"type": "string"` — and checks the ceiling before the leaf test. -/
theorem claim2_depth_is_per_value_visit :
    specStructuralDepth (JVal.dict docExampleSchema) = 4 ∧
    validateErrors docExampleSchema =
      [depthMsg "root.properties.items.items.properties.name",
       depthMsg "root.properties.items.items.properties.price"] := by
  constructor
  · decide
  · decide

/-- C3: whenever the root's `type` is not exactly the string `"object"`
(absent, a list, or any other value), the root-type violation is reported;
and the requirement is root-only — scenario 1's schema, whose nested node has
a primitive type, is reported entirely valid. -/
theorem claim3_root_type_required :
    (∀ kvs : JDict, dictTypeIs kvs "object" = false →
        rootTypeMsg ∈ validateErrors kvs) ∧
    validateErrors scenario1 = [] := by
  constructor
  · intro kvs h
    simp [validateErrors, h]
  · decide

/-- Witness for C3 at the empty dict (whose `type` is absent). -/
theorem claim3_root_type_required_witness :
    rootTypeMsg ∈ validateErrors JDict.nil :=
  claim3_root_type_required.1 JDict.nil (by decide)

/-- C10: on the empty mapping the validator reports exactly the top-level
type violation and nothing else, and renders the corresponding single-bullet
failure report. -/
theorem claim10_empty_schema :
    validateErrors JDict.nil = [rootTypeMsg] ∧
    ade_validate_json_schema (JVal.dict JDict.nil) =
      Except.ok (failHeader ++ "- " ++ rootTypeMsg) := by
  constructor
  · decide
  · rfl


mutual

theorem traverseFuel_sufficient (fuel : Nat) (obj : JVal) (path : String) (depth : Nat)
    (h1 : 1 ≤ fuel) (h7 : 7 ≤ fuel + depth) :
    traverseFuel fuel obj path depth = some (traverse obj path depth) := by
  match fuel, h1 with
  | fuel2 + 1, _ =>
    by_cases hd : depth > 5
    · cases obj <;> simp [traverseFuel, traverse, hd]
    · have hd5 : depth ≤ 5 := Nat.not_lt.mp hd
      cases obj with
      | dict kvs =>
        rw [traverse_dict_le kvs path depth hd]
        simpa [traverseFuel, hd] using
          traverseFuelItems_sufficient fuel2 kvs kvs path depth hd5 (by omega)
      | list xs =>
        have : traverse (JVal.list xs) path depth = traverseElems xs 0 path depth := by
          simp [traverse, hd]
        rw [this]
        simpa [traverseFuel, hd] using
          traverseFuelElems_sufficient fuel2 xs 0 path depth hd5 (by omega)
      | null => simp [traverseFuel, traverse, hd]
      | bool b => simp [traverseFuel, traverse, hd]
      | num n => simp [traverseFuel, traverse, hd]
      | str s => simp [traverseFuel, traverse, hd]

theorem traverseFuelItems_sufficient (fuel : Nat) (whole rest : JDict) (path : String)
    (depth : Nat) (hd5 : depth ≤ 5) (h6 : 6 ≤ fuel + depth) :
    traverseFuelItems fuel whole rest path depth =
      some (traverseItems whole rest path depth) := by
  match rest with
  | JDict.nil => simp [traverseFuelItems, traverseItems]
  | JDict.cons key value rest2 =>
    rw [traverseFuelItems,
      traverseFuel_sufficient fuel value (path ++ "." ++ key) (depth + 1) (by omega) (by omega),
      traverseFuelItems_sufficient fuel whole rest2 path depth hd5 h6,
      traverseItems]

theorem traverseFuelElems_sufficient (fuel : Nat) (xs : JList) (i : Nat) (path : String)
    (depth : Nat) (hd5 : depth ≤ 5) (h6 : 6 ≤ fuel + depth) :
    traverseFuelElems fuel xs i path depth = some (traverseElems xs i path depth) := by
  match xs with
  | JList.nil => simp [traverseFuelElems, traverseElems]
  | JList.cons x xs2 =>
    rw [traverseFuelElems,
      traverseFuel_sufficient fuel x (path ++ "[" ++ toString i ++ "]") (depth + 1) (by omega) (by omega),
      traverseFuelElems_sufficient fuel xs2 (i + 1) path depth hd5 h6,
      traverseElems]

end

/-- C9: the depth ceiling is an absolute recursion bound for the walk: a
fixed call-stack budget of 6 frames always suffices — for every input tree
`traverseFuel 6` completes (never exhausts its budget) and computes exactly
`traverse`, so the walk terminates by exhausting the tree or hitting the
ceiling and never recurses unboundedly. -/
theorem claim9_walk_terminates :
    ∀ (obj : JVal) (path : String) (depth : Nat), 1 ≤ depth →
      traverseFuel 6 obj path depth = some (traverse obj path depth) :=
  fun obj path depth h =>
    traverseFuel_sufficient 6 obj path depth (by decide) (by omega)

/-- Witness for C9 on the 6-levels-deep chain schema. -/
theorem claim9_walk_terminates_witness :
    traverseFuel 6 (JVal.dict deepChain6) "root" 1 =
      some (traverse (JVal.dict deepChain6) "root" 1) :=
  claim9_walk_terminates (JVal.dict deepChain6) "root" 1 (by decide)

mutual

theorem occs_depth_le (obj : JVal) (path : String) (depth : Nat)
    (k p : String) (d : Nat) (h : (k, p, d) ∈ prohibitedOccs obj path depth) :
    depth ≤ d := by
  cases obj with
  | dict kvs => exact occsItems_depth_le kvs path depth k p d (by simpa [prohibitedOccs] using h)
  | list xs => exact occsElems_depth_le xs 0 path depth k p d (by simpa [prohibitedOccs] using h)
  | null => simp [prohibitedOccs] at h
  | bool b => simp [prohibitedOccs] at h
  | num n => simp [prohibitedOccs] at h
  | str s => simp [prohibitedOccs] at h

theorem occsItems_depth_le (kvs : JDict) (path : String) (depth : Nat)
    (k p : String) (d : Nat) (h : (k, p, d) ∈ prohibitedOccsItems kvs path depth) :
    depth ≤ d := by
  match kvs with
  | JDict.nil => simp [prohibitedOccsItems] at h
  | JDict.cons key value rest =>
    rw [prohibitedOccsItems] at h
    rcases List.mem_append.mp h with h1 | h2
    · rcases List.mem_append.mp h1 with h3 | h4
      · by_cases hk : key ∈ prohibited_keywords <;> simp [hk] at h3
        obtain ⟨-, -, h5⟩ := h3
        omega
      · have := occs_depth_le value (path ++ "." ++ key) (depth + 1) k p d h4
        omega
    · exact occsItems_depth_le rest path depth k p d h2

theorem occsElems_depth_le (xs : JList) (i : Nat) (path : String) (depth : Nat)
    (k p : String) (d : Nat) (h : (k, p, d) ∈ prohibitedOccsElems xs i path depth) :
    depth ≤ d := by
  match xs with
  | JList.nil => simp [prohibitedOccsElems] at h
  | JList.cons x xs2 =>
    rw [prohibitedOccsElems] at h
    rcases List.mem_append.mp h with h1 | h2
    · have := occs_depth_le x (path ++ "[" ++ toString i ++ "]") (depth + 1) k p d h1
      omega
    · exact occsElems_depth_le xs2 (i + 1) path depth k p d h2

end

mutual

theorem prohib_reported (obj : JVal) (path : String) (depth : Nat) (hdep : depth ≤ 5)
    (k p : String) (d : Nat) (ho : (k, p, d) ∈ prohibitedOccs obj path depth)
    (hd : d ≤ 5) : prohibMsg k p ∈ traverse obj path depth := by
  have hngt : ¬ depth > 5 := by omega
  cases obj with
  | dict kvs =>
    rw [traverse_dict_le kvs path depth hngt]
    exact prohib_reported_items kvs kvs path depth hdep k p d
      (by simpa [prohibitedOccs] using ho) hd
  | list xs =>
    have ht : traverse (JVal.list xs) path depth = traverseElems xs 0 path depth := by
      simp [traverse, hngt]
    rw [ht]
    exact prohib_reported_elems xs 0 path depth hdep k p d
      (by simpa [prohibitedOccs] using ho) hd
  | null => simp [prohibitedOccs] at ho
  | bool b => simp [prohibitedOccs] at ho
  | num n => simp [prohibitedOccs] at ho
  | str s => simp [prohibitedOccs] at ho

theorem prohib_reported_items (whole rest : JDict) (path : String) (depth : Nat)
    (hdep : depth ≤ 5) (k p : String) (d : Nat)
    (ho : (k, p, d) ∈ prohibitedOccsItems rest path depth) (hd : d ≤ 5) :
    prohibMsg k p ∈ traverseItems whole rest path depth := by
  match rest with
  | JDict.nil => simp [prohibitedOccsItems] at ho
  | JDict.cons key value rest2 =>
    rw [prohibitedOccsItems] at ho
    rw [traverseItems_cons]
    rcases List.mem_append.mp ho with h1 | h2
    · rcases List.mem_append.mp h1 with h3 | h4
      · by_cases hk : key ∈ prohibited_keywords <;> simp [hk] at h3
        obtain ⟨rfl, rfl, -⟩ := h3
        apply List.mem_append_left
        apply List.mem_append_left
        simp [keyChecks, hk]
      · have hlow := occs_depth_le value (path ++ "." ++ key) (depth + 1) k p d h4
        have := prohib_reported value (path ++ "." ++ key) (depth + 1) (by omega) k p d h4 hd
        apply List.mem_append_left
        exact List.mem_append_right _ this
    · exact List.mem_append_right _
        (prohib_reported_items whole rest2 path depth hdep k p d h2 hd)

theorem prohib_reported_elems (xs : JList) (i : Nat) (path : String) (depth : Nat)
    (hdep : depth ≤ 5) (k p : String) (d : Nat)
    (ho : (k, p, d) ∈ prohibitedOccsElems xs i path depth) (hd : d ≤ 5) :
    prohibMsg k p ∈ traverseElems xs i path depth := by
  match xs with
  | JList.nil => simp [prohibitedOccsElems] at ho
  | JList.cons x xs2 =>
    rw [prohibitedOccsElems] at ho
    rw [traverseElems]
    rcases List.mem_append.mp ho with h1 | h2
    · have hlow := occs_depth_le x (path ++ "[" ++ toString i ++ "]") (depth + 1) k p d h1
      have := prohib_reported x (path ++ "[" ++ toString i ++ "]") (depth + 1) (by omega) k p d h1 hd
      exact List.mem_append_left _ this
    · exact List.mem_append_right _
        (prohib_reported_elems xs2 (i + 1) path depth hdep k p d h2 hd)

end

/-- C4 (amended): every occurrence of a prohibited keyword on a node entered
at depth at most 5 yields a separate violation at that occurrence's path;
occurrences on nodes past the depth ceiling are not reported. -/
theorem claim4_prohibited_within_ceiling :
    ∀ (kvs : JDict) (k p : String) (d : Nat),
      (k, p, d) ∈ prohibitedOccs (JVal.dict kvs) "root" 1 → d ≤ 5 →
      prohibMsg k p ∈ validateErrors kvs := by
  intro kvs k p d ho hd
  have h := prohib_reported (JVal.dict kvs) "root" 1 (by omega) k p d ho hd
  simp only [validateErrors]
  exact List.mem_append_right _ h

/-- Witness for C4 (amended) on scenario 4's root-level `allOf`. -/
theorem claim4_prohibited_within_ceiling_witness :
    prohibMsg "allOf" "root.allOf" ∈ validateErrors scenario4 :=
  claim4_prohibited_within_ceiling scenario4 "allOf" "root.allOf" 1 (by decide) (by decide)

/-- C4 counterexample: `deepAllOfSchema` contains an `allOf` occurrence (at
path `root.a.b.c.d.e.allOf`, on a node entered at depth 6), yet no
prohibited-keyword violation for that path is reported — the claim's "at any
depth" fails past the ceiling. -/
theorem claim4_counterexample :
    ("allOf", "root.a.b.c.d.e.allOf", 6) ∈
        prohibitedOccs (JVal.dict deepAllOfSchema) "root" 1 ∧
    prohibMsg "allOf" "root.a.b.c.d.e.allOf" ∉ validateErrors deepAllOfSchema := by
  decide


theorem completeness_reported (kvs : JDict) (path : String) (depth : Nat)
    (hdep : depth ≤ 5) :
    (dictTypeIs kvs "object" = true → hasKey kvs "properties" = false →
      objPropsMsg path ∈ traverse (JVal.dict kvs) path depth) ∧
    (dictTypeIs kvs "array" = true → hasKey kvs "items" = false →
      arrItemsMsg path ∈ traverse (JVal.dict kvs) path depth) := by
  have hngt : ¬ depth > 5 := by omega
  rw [traverse_dict_le kvs path depth hngt]
  match kvs with
  | JDict.nil =>
    constructor <;> intro h1 h2 <;> simp [dictTypeIs, pyGet] at h1
  | JDict.cons key value rest =>
    constructor <;> intro h1 h2 <;> rw [traverseItems_cons] <;>
      apply List.mem_append_left <;> apply List.mem_append_left <;>
      simp [keyChecks, h1, h2]

theorem typeArr_reported_items (whole : JDict) (path : String) (depth : Nat)
    (rest : JDict) (ts : JList)
    (h1 : pyGet rest "type" = some (JVal.list ts))
    (h2 : (strListHas ts "object" || strListHas ts "array") = true) :
    typeArrMsg (path ++ ".type") ∈ traverseItems whole rest path depth := by
  match rest with
  | JDict.nil => simp [pyGet] at h1
  | JDict.cons key value rest2 =>
    rw [traverseItems_cons]
    by_cases hk : key == "type"
    · have hkey : key = "type" := by simpa using hk
      rw [pyGet, if_pos hk] at h1
      obtain rfl : value = JVal.list ts := by injection h1
      apply List.mem_append_left
      apply List.mem_append_left
      subst hkey
      have hpath : path ++ "." ++ "type" = path ++ ".type" := by
        rw [String.append_assoc]
        rfl
      simp [keyChecks, isTypeArrayViolation, h2, hpath]
    · rw [pyGet, if_neg hk] at h1
      exact List.mem_append_right _
        (typeArr_reported_items whole path depth rest2 ts h1 h2)

/-- C5 (amended): for every node the walk enters within the depth ceiling
(depth at most 5), an `"object"`-typed node without `properties`, or an
`"array"`-typed node without `items`, yields the completeness violation at
that node's path; and scenario 3 reports exactly the missing-`properties`
violation at `root.properties.x`.  Nodes first entered past the ceiling are
not checked. -/
theorem claim5_completeness_within_ceiling :
    (∀ (kvs : JDict) (path : String) (depth : Nat), depth ≤ 5 →
        dictTypeIs kvs "object" = true → hasKey kvs "properties" = false →
        objPropsMsg path ∈ traverse (JVal.dict kvs) path depth) ∧
    (∀ (kvs : JDict) (path : String) (depth : Nat), depth ≤ 5 →
        dictTypeIs kvs "array" = true → hasKey kvs "items" = false →
        arrItemsMsg path ∈ traverse (JVal.dict kvs) path depth) ∧
    validateErrors scenario3 = [objPropsMsg "root.properties.x"] := by
  refine ⟨fun kvs path depth hd => (completeness_reported kvs path depth hd).1,
          fun kvs path depth hd => (completeness_reported kvs path depth hd).2, ?_⟩
  decide

/-- Witness for C5 (amended) at scenario 3's inner node. -/
theorem claim5_completeness_within_ceiling_witness :
    objPropsMsg "root.properties.x" ∈
      traverse (jobj [("type", JVal.str "object")]) "root.properties.x" 3 :=
  claim5_completeness_within_ceiling.1 (jdict [("type", JVal.str "object")])
    "root.properties.x" 3 (by decide) (by decide) (by decide)

/-- C5 counterexample: the node at `root.p.q.r.s.t` of `deepObjSchema` is
`"object"`-typed and lacks `properties`, yet no missing-`properties`
violation at its path is reported — the node sits past the depth ceiling. -/
theorem claim5_counterexample :
    dictTypeIs (jdict [("type", JVal.str "object")]) "object" = true ∧
    hasKey (jdict [("type", JVal.str "object")]) "properties" = false ∧
    objPropsMsg "root.p.q.r.s.t" ∉ validateErrors deepObjSchema := by
  decide

/-- C6 (amended): for every node the walk enters within the depth ceiling
whose `type` keyword stores a list containing `"object"` or `"array"`, the
type-union violation is reported at that `type` keyword's path; and scenario
5 reports exactly the type-union violation at `root.properties.a.type`.
Nodes first entered past the ceiling are not checked. -/
theorem claim6_type_union_within_ceiling :
    (∀ (kvs : JDict) (path : String) (depth : Nat) (ts : JList), depth ≤ 5 →
        pyGet kvs "type" = some (JVal.list ts) →
        (strListHas ts "object" || strListHas ts "array") = true →
        typeArrMsg (path ++ ".type") ∈ traverse (JVal.dict kvs) path depth) ∧
    validateErrors scenario5 = [typeArrMsg "root.properties.a.type"] := by
  constructor
  · intro kvs path depth ts hd h1 h2
    rw [traverse_dict_le kvs path depth (by omega)]
    exact typeArr_reported_items kvs path depth kvs ts h1 h2
  · decide

/-- Witness for C6 (amended) at scenario 5's inner node. -/
theorem claim6_type_union_within_ceiling_witness :
    typeArrMsg ("root.properties.a" ++ ".type") ∈
      traverse (jobj [("type", jarr [JVal.str "object", JVal.str "string"])])
        "root.properties.a" 3 :=
  claim6_type_union_within_ceiling.1
    (jdict [("type", jarr [JVal.str "object", JVal.str "string"])])
    "root.properties.a" 3 (jlist [JVal.str "object", JVal.str "string"])
    (by decide) rfl (by decide)

/-- C6 counterexample: the node at `root.u.v.w.x.y` of `deepTypeUnionSchema`
has the type union `["object", "string"]`, yet no type-union violation at
`root.u.v.w.x.y.type` is reported — the node sits past the depth ceiling. -/
theorem claim6_counterexample :
    isTypeArrayViolation (jarr [JVal.str "object", JVal.str "string"]) = true ∧
    typeArrMsg "root.u.v.w.x.y.type" ∉ validateErrors deepTypeUnionSchema := by
  decide


theorem renderReport_cons (e : String) (es : List String) :
    renderReport (e :: es) =
      failHeader ++ String.intercalate "\n" ((e :: es).dedup.map (fun x => "- " ++ x)) := rfl

theorem strContains_failHeader (s : String) :
    strContains (failHeader ++ s) "❌" = true := by
  simp only [strContains, decide_eq_true_eq]
  rw [String.data_append]
  have h : "❌".data <+: failHeader.data := by decide
  exact (h.trans (List.prefix_append _ _)).isInfix

theorem failHeader_append_ne_ok (s : String) : failHeader ++ s ≠ validOkLiteral := by
  intro h
  have h1 := strContains_failHeader s
  rw [h] at h1
  have h2 : strContains validOkLiteral "❌" = false := by decide
  rw [h1] at h2
  exact Bool.noConfusion h2

/-- C7: the schema-driven extraction entry point forwards
`(documentBytes, schema)` to the engine exactly when the validator reports
success, and on any validation failure (raised or reported) it refuses
without calling the engine, embedding the validation report in its
payload. -/
theorem claim7_validation_gates_extraction :
    ∀ (pdfBase64 : List Nat) (schema : JVal),
      (ade_extract_with_json_schema pdfBase64 schema =
          ExtractAction.forwarded pdfBase64 schema ↔
        ade_validate_json_schema schema = Except.ok validOkLiteral) ∧
      (∀ kvs : JDict, schema = JVal.dict kvs → validateErrors kvs ≠ [] →
        ade_extract_with_json_schema pdfBase64 schema =
          ExtractAction.refused
            ("Schema validation failed. Please fix the schema before extraction.\n" ++
              renderReport (validateErrors kvs))) := by
  intro pdf schema
  cases schema
  case dict kvs =>
    have hval : ade_validate_json_schema (JVal.dict kvs) =
        Except.ok (renderReport (validateErrors kvs)) := rfl
    cases hE : validateErrors kvs with
    | nil =>
      have hr : renderReport (validateErrors kvs) = validOkLiteral := by
        rw [hE]
        rfl
      have hsc : strContains validOkLiteral "❌" = false := by decide
      have hx : ade_extract_with_json_schema pdf (JVal.dict kvs) =
          ExtractAction.forwarded pdf (JVal.dict kvs) := by
        simp [ade_extract_with_json_schema, hval, hr, hsc]
      refine ⟨?_, ?_⟩
      · rw [hx, hval, hr]
        simp
      · intro kvs2 heq hne
        injection heq with h
        subst h
        exact absurd hE hne
    | cons e es =>
      have hcontains : strContains (renderReport (validateErrors kvs)) "❌" = true := by
        rw [hE, renderReport_cons]
        exact strContains_failHeader _
      have hx : ade_extract_with_json_schema pdf (JVal.dict kvs) =
          ExtractAction.refused
            ("Schema validation failed. Please fix the schema before extraction.\n" ++
              renderReport (validateErrors kvs)) := by
        simp [ade_extract_with_json_schema, hval, hcontains]
      refine ⟨?_, ?_⟩
      · rw [hx, hval]
        constructor
        · intro hcon
          exact ExtractAction.noConfusion hcon
        · intro hok
          injection hok with h2
          rw [hE, renderReport_cons] at h2
          exact absurd h2 (failHeader_append_ne_ok _)
      · intro kvs2 heq hne
        injection heq with h
        subst h
        exact hx
  all_goals
    refine ⟨?_, fun kvs2 heq hne => JVal.noConfusion heq⟩
  all_goals
    constructor
  all_goals
    intro h
  all_goals
    first
      | exact ExtractAction.noConfusion h
      | exact Except.noConfusion h

/-- Witness for C7 at the empty-dict schema (which fails validation) and an
empty document: the gate refuses with the embedded report. -/
theorem claim7_validation_gates_extraction_witness :
    ade_extract_with_json_schema [] (JVal.dict JDict.nil) =
      ExtractAction.refused
        ("Schema validation failed. Please fix the schema before extraction.\n" ++
          renderReport (validateErrors JDict.nil)) :=
  (claim7_validation_gates_extraction [] (JVal.dict JDict.nil)).2 JDict.nil rfl (by decide)

/-- `isinstance(schema, dict)` as a predicate on the embedded values. -/
def isDictVal (j : JVal) : Bool :=
  match j with
  | JVal.dict _ => true
  | _ => false

/-- C8 counterexample: on a `null` root the validator raises (an
`AttributeError` at `schema.get`) instead of returning a result — in
particular the outcome is not a normalized single root-type-violation
report. -/
theorem claim8_counterexample :
    ade_validate_json_schema JVal.null = Except.error pyAttributeError ∧
    (ade_validate_json_schema JVal.null).isOk = false :=
  ⟨rfl, rfl⟩

/-- C8 (amended): the validator returns a result (never raises) for every
mapping input — well-formed-but-invalid schemas included — and treats
non-mapping/non-sequence nodes as leaves (no violations, no further
traversal) within the ceiling; but a non-mapping root (e.g. `null`) raises
an `AttributeError` rather than being normalized to a root-type
violation. -/
theorem claim8_total_on_mappings :
    (∀ kvs : JDict, (ade_validate_json_schema (JVal.dict kvs)).isOk = true) ∧
    (∀ (path : String) (depth : Nat), depth ≤ 5 →
        traverse JVal.null path depth = [] ∧
        (∀ b, traverse (JVal.bool b) path depth = []) ∧
        (∀ n, traverse (JVal.num n) path depth = []) ∧
        (∀ s, traverse (JVal.str s) path depth = [])) ∧
    (∀ j : JVal, isDictVal j = false →
        ade_validate_json_schema j = Except.error pyAttributeError) := by
  refine ⟨fun kvs => rfl, ?_, ?_⟩
  · intro path depth hd
    have hngt : ¬ depth > 5 := by omega
    exact ⟨by simp [traverse, hngt], fun b => by simp [traverse, hngt],
           fun n => by simp [traverse, hngt], fun s => by simp [traverse, hngt]⟩
  · intro j hj
    cases j <;> first | rfl | simp [isDictVal] at hj

/-- Witness for C8 (amended): a scalar node within the ceiling yields no
violations and no descent. -/
theorem claim8_total_on_mappings_witness :
    traverse JVal.null "root" 2 = [] :=
  (claim8_total_on_mappings.2.1 "root" 2 (by decide)).1


end McpAdeServer